import Mathlib

/-!
Verification development for the flex-reviews repository.

The file shallowly embeds the review normalization and query pipeline of
src/flex-reviews/src/app/api/reviews/hostaway/route.ts, the public
approved-reviews client component, and the places (Google) adapter route,
and proves or refutes the specified properties about them.

Modelling conventions:
  - JS numbers that hold ratings are modelled as rationals; epoch
    milliseconds as integers.
  - JS strings are Lean strings; `toLowerCase` is `String.toLower` (the
    repository data is ASCII).
  - Timestamp strings are modelled structurally: a calendar date-time in
    UTC. `Date.parse` of the "YYYY-MM-DD HH:mm:ss" / ISO strings the
    pipeline constructs always succeeds and denotes that UTC instant, so
    the NaN branches of the source never fire on structured values.
  - `searchParams.get(...)` results arrive pre-parsed in a `Params`
    record: absent (or empty, which JS treats as falsy) parameters are
    `none`, CSV lists are already split and lowercased as `parseCsvLower`
    does, and numeric parameters are parsed as `parseNumber` does.
  - `Array.prototype.sort` with a consistent comparator is, per the
    ECMAScript specification, a stable sort ordered by the comparator:
    its output is uniquely determined, and we model it by
    `List.insertionSort` with the relation "comparator result is not
    positive", which is exactly that stable sort.
-/

namespace FlexReviews

/-! ## Calendar / timestamp model -/

/-- A UTC calendar date-time, the structured reading of the timestamp
strings used by the repository ("YYYY-MM-DD HH:mm:ss" and ISO forms). -/
structure DateTime where
  y : Nat
  m : Nat
  d : Nat
  hh : Nat
  mi : Nat
  s : Nat
deriving DecidableEq, Repr

/-- A bare "YYYY-MM-DD" date as supplied to the from/to query parameters. -/
structure Ymd where
  y : Nat
  m : Nat
  d : Nat
deriving DecidableEq, Repr

def isLeap (y : Nat) : Bool :=
  (y % 4 == 0 && y % 100 != 0) || (y % 400 == 0)

def daysInMonth (y m : Nat) : Nat :=
  match m with
  | 1 => 31
  | 2 => if isLeap y then 29 else 28
  | 3 => 31
  | 4 => 30
  | 5 => 31
  | 6 => 30
  | 7 => 31
  | 8 => 31
  | 9 => 30
  | 10 => 31
  | 11 => 30
  | 12 => 31
  | _ => 0

def daysBeforeYear (y : Nat) : Nat :=
  (List.range (y - 1970)).foldl
    (fun acc i => acc + (if isLeap (1970 + i) then 366 else 365)) 0

def daysBeforeMonth (y m : Nat) : Nat :=
  (List.range (m - 1)).foldl (fun acc i => acc + daysInMonth y (i + 1)) 0

/-- Days since 1970-01-01 of a (post-epoch) calendar date. -/
def epochDays (y m d : Nat) : Nat :=
  daysBeforeYear y + daysBeforeMonth y m + (d - 1)

/-- Epoch milliseconds of a UTC date-time: the value `Date.parse` returns
for the corresponding timestamp string. -/
def epochMs (t : DateTime) : Int :=
  ((epochDays t.y t.m t.d : Int) * 86400
    + t.hh * 3600 + t.mi * 60 + t.s) * 1000

/-- The value of `Date.parse("YYYY-MM-DD")`: UTC midnight of that date. -/
def ymdParseMs (d : Ymd) : Int :=
  epochMs ⟨d.y, d.m, d.d, 0, 0, 0⟩

/-! ## Data model of the hostaway route (route.ts lines 10-25) -/

/-- One sub-score entry: `{ category: string; rating: number | null }`. -/
structure CategoryRating where
  category : String
  rating : Option ℚ
deriving DecidableEq, Repr

/-- The `Review` type of the hostaway route. `id` is `number | string`;
the timestamp fields are kept structurally per the conventions above. -/
structure Review where
  id : Int ⊕ String
  type : Option String
  status : Option String
  channel : Option String
  rating : Option ℚ
  publicReview : String
  reviewCategory : List CategoryRating
  submittedAt : DateTime
  submittedAtIso : Option DateTime
  submittedAtTs : Option Int
  guestName : String
  listingName : String
  approved : Option Bool
deriving DecidableEq, Repr

/-! ## Utilities of route.ts (lines 84-120) -/

/-- `toEpochMs` (route.ts lines 85-94): prefer the numeric `submittedAtTs`,
then the ISO field, then `submittedAt` with its space replaced by "T" plus
"Z" appended, which denotes the same UTC instant as the structured value.
On structured values every `Date.parse` succeeds, so the NaN fallback to 0
never fires. -/
def toEpochMs (r : Review) : Int :=
  match r.submittedAtTs with
  | some t => t
  | none =>
    match r.submittedAtIso with
    | some iso => epochMs iso
    | none => epochMs r.submittedAt

/-- `icaseEq` (route.ts lines 104-106): accent-sensitivity
`localeCompare` equality, i.e. case-insensitive string equality; modelled
as equality after lowercasing (the repository data is ASCII). -/
def icaseEq (a b : String) : Bool :=
  a.toLower == b.toLower

def startsWithSeq : List Char → List Char → Bool
  | [], _ => true
  | _ :: _, [] => false
  | a :: as, b :: bs => a == b && startsWithSeq as bs

/-- `String.prototype.includes`: the needle occurs contiguously in the
haystack. -/
def containsSeq (needle : List Char) : List Char → Bool
  | [] => startsWithSeq needle []
  | c :: t => startsWithSeq needle (c :: t) || containsSeq needle t

def containsSub (hay needle : String) : Bool :=
  containsSeq needle.data hay.data

/-! ## Query parameters (route.ts lines 244-262)

Each field holds the parsed value of one query parameter: `none` for an
absent (or JS-falsy empty) parameter. `types` and `channels` are the
`parseCsvLower` output, `min` the `parseNumber` output, `fromD` and `toD`
the date strings, `sort` and `order` the lowercased strings with `order`
defaulting to "desc". `page` and `limit` may be present in a query string
but the handler never reads them. -/

structure Params where
  listing : Option String
  q : Option String
  category : Option String
  min : Option ℚ
  types : Option (List String)
  channels : Option (List String)
  approvedOnly : Bool
  fromD : Option Ymd
  toD : Option Ymd
  page : Option Int
  limit : Option Int
  sort : String
  order : String

/-- The parameter record of a request with no query string at all:
every filter absent, `sort` empty, `order` defaulted to "desc". -/
def defaultQueryParams : Params :=
  { listing := none, q := none, category := none, min := none
    types := none, channels := none, approvedOnly := false
    fromD := none, toD := none, page := none, limit := none
    sort := "", order := "desc" }

/-! ## Row source selection (route.ts lines 264-280) -/

/-- The inputs the handler draws rows from: the live toggle `USE_LIVE`,
the outcome of `fetchLiveReviews()` (an `Except` value: `error` is any
thrown failure - token fetch failure, non-success HTTP status, network or
parse error), and the bundled mock fixture `loadMock()`. -/
structure GetInput where
  useLive : Bool
  liveResult : Except String (List Review)
  mock : List Review

/-- The try/catch of route.ts lines 267-280: rows and the `x-source`
provenance marker. -/
def chooseRows (inp : GetInput) : List Review × String :=
  if inp.useLive then
    match inp.liveResult with
    | Except.ok live =>
      if live.length > 0 then (live, "live")
      else (inp.mock, "live-empty-fallback")
    | Except.error _ => (inp.mock, "live-error-fallback")
  else (inp.mock, "mock")

/-! ## Defaults pass (route.ts lines 283-291) -/

/-- The defaults-early map: `channel ?? "Hostaway"`,
`type ?? "guest-to-host"`, `rating ?? null` (the identity on an option),
and `submittedAtIso ?? submittedAt.replace(" ", "T") + "Z"`, where the
derived ISO string denotes the same instant as the structured
`submittedAt` (which is always present). -/
def applyDefaults (r : Review) : Review :=
  { r with
    channel := some (r.channel.getD "Hostaway")
    type := some (r.type.getD "guest-to-host")
    rating := r.rating
    submittedAtIso := some (r.submittedAtIso.getD r.submittedAt) }

/-! ## Filters (route.ts lines 293-333) -/

def passListing (listing : String) (r : Review) : Bool :=
  icaseEq r.listingName listing

def hayOf (r : Review) : String :=
  r.guestName ++ " " ++ r.listingName ++ " " ++ r.publicReview

def passQ (q : String) (r : Review) : Bool :=
  containsSub (hayOf r).toLower q.toLower

def passTypes (ts : List String) (r : Review) : Bool :=
  ts.contains (r.type.getD "").toLower

def passChannels (cs : List String) (r : Review) : Bool :=
  (cs.map String.toLower).contains (r.channel.getD "Hostaway").toLower

def passCategory (cat : String) (min : Option ℚ) (r : Review) : Bool :=
  match r.reviewCategory.find? (fun c => c.category == cat) with
  | none => false
  | some hit =>
    match min with
    | none => hit.rating.isSome
    | some m =>
      match hit.rating with
      | some x => decide (m ≤ x)
      | none => false

def passApproved (r : Review) : Bool :=
  r.approved == some true

/-- The date-range filter body (route.ts lines 328-333): drop the row when
`fromMs` is present and `t < fromMs`, or `toMs` is present and `t > toMs`.
The NaN guards never fire on parsed values. -/
def passDate (fromMs toMs : Option Int) (r : Review) : Bool :=
  (match fromMs with
   | some f => !decide (toEpochMs r < f)
   | none => true)
  &&
  (match toMs with
   | some tm => !decide (tm < toEpochMs r)
   | none => true)

/-- The filter cascade in source order: listing, q, type, channel,
category+min, approvedOnly, then the date range with
`fromMs = Date.parse(from)` and `toMs = Date.parse(to)`. -/
def applyFilters (p : Params) (rows : List Review) : List Review :=
  let rows := match p.listing with
    | some l => rows.filter (passListing l)
    | none => rows
  let rows := match p.q with
    | some q => rows.filter (passQ q)
    | none => rows
  let rows := match p.types with
    | some ts => if ts.length > 0 then rows.filter (passTypes ts) else rows
    | none => rows
  let rows := match p.channels with
    | some cs => if cs.length > 0 then rows.filter (passChannels cs) else rows
    | none => rows
  let rows := match p.category with
    | some c => rows.filter (passCategory c p.min)
    | none => rows
  let rows := if p.approvedOnly then rows.filter passApproved else rows
  rows.filter (passDate (p.fromD.map ymdParseMs) (p.toD.map ymdParseMs))

/-! ## Sorting (route.ts lines 336-348) -/

/-- The date comparator `toEpochMs(a) - toEpochMs(b)`: `a` sorts no later
than `b` exactly when the comparator is not positive. -/
def dateRel (a b : Review) : Prop :=
  toEpochMs a ≤ toEpochMs b

instance : DecidableRel dateRel := fun a b =>
  inferInstanceAs (Decidable (toEpochMs a ≤ toEpochMs b))

instance : IsTotal Review dateRel :=
  ⟨fun a b => Int.le_total (toEpochMs a) (toEpochMs b)⟩

instance : IsTrans Review dateRel :=
  ⟨fun _ _ _ hab hbc => Int.le_trans hab hbc⟩

/-- The rating comparator on option ratings: both null compare 0, a null
on the left compares 1 (sorts after), a null on the right compares -1
(sorts before), otherwise `A - B`. The relation holds when the comparator
is not positive. -/
def optRatingRel : Option ℚ → Option ℚ → Prop
  | none, none => True
  | none, some _ => False
  | some _, none => True
  | some x, some y => x ≤ y

def optRatingRelDec : (o p : Option ℚ) → Decidable (optRatingRel o p)
  | none, none => isTrue trivial
  | none, some _ => isFalse (fun h => h)
  | some _, none => isTrue trivial
  | some x, some y => inferInstanceAs (Decidable (x ≤ y))

def ratingRel (a b : Review) : Prop :=
  optRatingRel a.rating b.rating

instance : DecidableRel ratingRel := fun a b =>
  optRatingRelDec a.rating b.rating

instance : IsTotal Review ratingRel :=
  ⟨fun a b => by
    unfold ratingRel
    generalize a.rating = oa
    generalize b.rating = ob
    rcases oa with _ | x <;> rcases ob with _ | y <;> simp [optRatingRel]
    exact le_total x y⟩

instance : IsTrans Review ratingRel :=
  ⟨fun a b c => by
    unfold ratingRel
    generalize a.rating = oa
    generalize b.rating = ob
    generalize c.rating = oc
    intro hab hbc
    rcases oa with _ | x <;> rcases ob with _ | y <;> rcases oc with _ | z <;>
      simp [optRatingRel] at hab hbc ⊢ <;> try exact le_trans hab hbc⟩

/-- The sort step: a stable sort by the date comparator for `sort=date`,
by the rating comparator for `sort=rating`, otherwise no sort. -/
def sortStep (p : Params) (rows : List Review) : List Review :=
  if p.sort == "date" then rows.insertionSort dateRel
  else if p.sort == "rating" then rows.insertionSort ratingRel
  else rows

/-- The direction step: `if (order === "desc") rows.reverse()`. -/
def orderStep (p : Params) (rows : List Review) : List Review :=
  if p.order == "desc" then rows.reverse else rows

/-! ## The handler (route.ts lines 243-361) -/

/-- The JSON response of the handler: the body `{status, result}` and the
`x-source` provenance header. There are no total, page or limit fields. -/
structure GetResponse where
  status : String
  result : List Review
  xSource : String

def processRows (p : Params) (rows : List Review) : List Review :=
  orderStep p (sortStep p (applyFilters p (rows.map applyDefaults)))

/-- The GET handler of the hostaway route: pick the row source, apply
defaults, filters, sort and direction, and answer `status:"success"` with
the provenance marker. -/
def hostawayGET (p : Params) (inp : GetInput) : GetResponse :=
  match chooseRows inp with
  | (rows, source) =>
    { status := "success", result := processRows p rows, xSource := source }

/-! ## Raw upstream records and normalization (route.ts lines 27-65, 157-227) -/

/-- A nested `{ name?: string }` object (`listing`, `property`, `guest`). -/
structure NameWrap where
  name : Option String
deriving DecidableEq, Repr

/-- One raw entry of `reviewCategory`: `{ category?: unknown; rating?: unknown }`.
`String(c.category ?? "")` is modelled by reading the category as an
optional string, `Number(c.rating)` by reading the rating as an optional
rational. -/
structure RawCategoryEntry where
  category : Option String
  rating : Option ℚ
deriving DecidableEq, Repr

/-- `HostawayReviewLike` (route.ts lines 27-65): every alias field the
normalizer probes. `number | string` ids are a sum; the `_id` field is
spelled `mongoId` here; the `categories` record is an association list in
insertion order (the order `Object.entries` yields). Timestamp strings
are structured date-times per the file conventions. Every field defaults
to `none` so concrete raw records list only their present fields. -/
structure HostawayReviewLike where
  id : Option (Int ⊕ String) := none
  reviewId : Option (Int ⊕ String) := none
  mongoId : Option String := none
  uuid : Option String := none
  listingName : Option String := none
  propertyName : Option String := none
  listing : Option NameWrap := none
  property : Option NameWrap := none
  guestName : Option String := none
  reviewerName : Option String := none
  guest : Option NameWrap := none
  authorName : Option String := none
  publicReview : Option String := none
  review : Option String := none
  comment : Option String := none
  text : Option String := none
  status : Option String := none
  channel : Option String := none
  source : Option String := none
  platform : Option String := none
  channelId : Option (String ⊕ Int) := none
  type : Option String := none
  direction : Option String := none
  rating : Option ℚ := none
  overallRating : Option ℚ := none
  score : Option ℚ := none
  reviewCategory : Option (List RawCategoryEntry) := none
  categories : Option (List (String × Option ℚ)) := none
  submittedAtIso : Option DateTime := none
  createdAt : Option DateTime := none
  date : Option DateTime := none
  created : Option DateTime := none
  updatedAt : Option DateTime := none
  submittedAt : Option DateTime := none
  approved : Option Bool := none
  isApproved : Option Bool := none
  visibility : Option String := none

/-- The `channelId ? "channel:" + channelId : undefined` branch: a JS
falsy channelId (empty string or 0) yields undefined. -/
def channelIdStr : Option (String ⊕ Int) → Option String
  | some (Sum.inl s) => if s == "" then none else some ("channel:" ++ s)
  | some (Sum.inr n) => if n == 0 then none else some ("channel:" ++ toString n)
  | none => none

/-- `normalizeHostaway` (route.ts lines 157-227). `freshId` stands for the
`Math.random().toString(36).slice(2)` fallback id. Each `??` cascade is an
explicit match cascade; `new Date(iso).toISOString().slice(0, 19).replace("T", " ")`
denotes the same instant as the structured `iso` value, and the absent-iso
sentinel is 1970-01-01 00:00:00. `Number.isFinite(raw.score)` is true
exactly when the score is present (numbers in the model are finite). -/
def normalizeHostaway (raw : HostawayReviewLike) (freshId : String) : Review :=
  let id : Int ⊕ String :=
    match raw.id with
    | some v => v
    | none =>
      match raw.reviewId with
      | some v => v
      | none =>
        match raw.mongoId with
        | some s => Sum.inr s
        | none =>
          match raw.uuid with
          | some s => Sum.inr s
          | none => Sum.inr freshId
  let listingName :=
    match raw.listingName with
    | some s => s
    | none =>
      match raw.propertyName with
      | some s => s
      | none =>
        match raw.listing.bind NameWrap.name with
        | some s => s
        | none =>
          match raw.property.bind NameWrap.name with
          | some s => s
          | none => "Unknown Property"
  let guestName :=
    match raw.guestName with
    | some s => s
    | none =>
      match raw.reviewerName with
      | some s => s
      | none =>
        match raw.guest.bind NameWrap.name with
        | some s => s
        | none =>
          match raw.authorName with
          | some s => s
          | none => "Guest"
  let publicReview :=
    match raw.publicReview with
    | some s => s
    | none =>
      match raw.review with
      | some s => s
      | none =>
        match raw.comment with
        | some s => s
        | none =>
          match raw.text with
          | some s => s
          | none => ""
  let status := raw.status.getD "published"
  let channel :=
    match raw.channel with
    | some s => some s
    | none =>
      match raw.source with
      | some s => some s
      | none =>
        match raw.platform with
        | some s => some s
        | none => channelIdStr raw.channelId
  let type :=
    match raw.type with
    | some s => some s
    | none => raw.direction
  let rating :=
    match raw.rating with
    | some v => some v
    | none =>
      match raw.overallRating with
      | some v => some v
      | none => raw.score
  let reviewCategory :=
    match raw.reviewCategory with
    | some arr =>
      (arr.map (fun c =>
        ({ category := c.category.getD "", rating := c.rating } : CategoryRating))).filter
        (fun cr => cr.category.length > 0)
    | none =>
      match raw.categories with
      | some entries =>
        entries.map (fun e => ({ category := e.1, rating := e.2 } : CategoryRating))
      | none => []
  let iso :=
    match raw.submittedAtIso with
    | some t => some t
    | none =>
      match raw.createdAt with
      | some t => some t
      | none =>
        match raw.date with
        | some t => some t
        | none =>
          match raw.created with
          | some t => some t
          | none => raw.updatedAt
  let submittedAt :=
    match raw.submittedAt with
    | some t => t
    | none => iso.getD ⟨1970, 1, 1, 0, 0, 0⟩
  let approved :=
    match raw.approved with
    | some b => some b
    | none =>
      match raw.isApproved with
      | some b => some b
      | none => if raw.visibility == some "public" then some true else none
  { id := id, type := type, status := some status, channel := channel
    rating := rating, publicReview := publicReview
    reviewCategory := reviewCategory, submittedAt := submittedAt
    submittedAtIso := iso, submittedAtTs := iso.map epochMs
    guestName := guestName, listingName := listingName, approved := approved }

/-! ## Public reviews client (PublicReviewsClient.tsx lines 7-46) -/

/-- The `Review` shape the client component receives; ids are numeric in
the repository data (`Number(r.id)` is the identity on them). -/
structure ClientReview where
  id : Int
  publicReview : String
  listingName : String
  guestName : String
  submittedAt : String
  submittedAtIso : Option String
  reviewCategory : List CategoryRating
  approved : Option Bool
deriving DecidableEq, Repr

/-- The approved-only view (PublicReviewsClient.tsx lines 41-46): keep a
review when its server flag is true or the local approval map holds true
for its id. The map is total with absent entries reading false
(`approvals[idNum] === true` is false for a missing key). -/
def approvedUnion (reviews : List ClientReview) (approvals : Int → Bool) :
    List ClientReview :=
  reviews.filter (fun r => r.approved == some true || approvals r.id)

/-! ## Places (Google) adapter (src/unnamed/part_000 lines 1-94) -/

/-- UTF-16 code units of a JS string, as `charCodeAt` reads them; for the
BMP strings of this repository these are the character code points. -/
def charCodes (s : String) : List Nat :=
  s.data.map (fun c => c.toNat)

/-- The unsigned 32-bit pattern of a JS integer (`ToUint32`). -/
def uint32OfInt (x : Int) : Nat :=
  (x % 4294967296).toNat

/-- The signed reading of an unsigned 32-bit pattern (`ToInt32`). -/
def int32OfUint (u : Nat) : Int :=
  if u < 2147483648 then (u : Int) else (u : Int) - 4294967296

/-- The value of an exact integer after rounding to the nearest float64
(ties to even): JS number multiplication rounds its exact product this
way. Magnitudes up to 2^53 are exact; above, the value is rounded to the
nearest even multiple of the unit in the last place. -/
def roundFloat64 (n : Int) : Int :=
  let a := n.natAbs
  if a ≤ 9007199254740992 then n
  else
    let k := Nat.log2 a + 1 - 53
    let u := 2 ^ k
    let q := a / u
    let r := a % u
    let rounded := if r * 2 > u || (r * 2 == u && q % 2 == 1) then (q + 1) * u else q * u
    if n < 0 then -(rounded : Int) else (rounded : Int)

/-- One step of the hash loop `h = (h ^ s.charCodeAt(i)) * 16777619`:
the xor coerces both operands to int32 (bitwise on the 32-bit pattern),
the multiplication is exact integer arithmetic rounded to float64, and
the running value is kept as its 32-bit pattern (the next xor, and the
final `>>> 0`, read exactly that pattern). -/
def fnvStep (h : Nat) (c : Nat) : Nat :=
  uint32OfInt (roundFloat64 (int32OfUint (Nat.xor h c) * 16777619))

/-- `hashToInt` (part_000 lines 22-26): the FNV-style fold seeded with
2166136261, then `(h >>> 0) % 2147483647`. -/
def hashToInt (s : String) : Nat :=
  ((charCodes s).foldl fnvStep 2166136261) % 2147483647

/-- `Math.round`: round half toward positive infinity. -/
def jsRound (q : ℚ) : Int :=
  Int.floor (q + 1 / 2)

structure PlaceText where
  text : Option String
deriving DecidableEq, Repr

structure PlaceAuthorAttribution where
  displayName : Option String
deriving DecidableEq, Repr

/-- One review of the places response, with the fields the adapter reads. -/
structure PlaceReview where
  name : Option String
  text : Option PlaceText
  rating : Option ℚ
  publishTime : Option String
  googleMapsUri : Option String
  authorAttribution : Option PlaceAuthorAttribution
deriving DecidableEq, Repr

structure PlaceDisplayName where
  text : Option String
deriving DecidableEq, Repr

/-- The place-details response body the adapter reads. -/
structure PlaceDetailsResponse where
  displayName : Option PlaceDisplayName
  googleMapsUri : Option String
  reviews : Option (List PlaceReview)
deriving DecidableEq, Repr

/-- JS `a || b` on a string-or-undefined left operand: an absent or empty
string falls through to the right operand. -/
def jsOrStr (a : Option String) (b : String) : String :=
  match a with
  | some s => if s == "" then b else s
  | none => b

/-- JS `a || b` where both operands are string-or-undefined. -/
def jsOrOpt (a b : Option String) : Option String :=
  match a with
  | some s => if s == "" then b else some s
  | none => b

/-- A JS template splice of a string-or-undefined value: an undefined
value renders as the text "undefined". -/
def templStr (a : Option String) : String :=
  match a with
  | some s => s
  | none => "undefined"

/-- The stable key of a place review (part_000 line 77):
`rev.name || publishTime + "|" + authorName + "|" + text`, where the
author and text fall back to the empty string. -/
def stableKey (rev : PlaceReview) : String :=
  jsOrStr rev.name
    (templStr rev.publishTime ++ "|"
      ++ jsOrStr (rev.authorAttribution.bind PlaceAuthorAttribution.displayName) ""
      ++ "|"
      ++ jsOrStr (rev.text.bind PlaceText.text) "")

/-- The normalized shape the places adapter emits. -/
structure GoogleNormalized where
  id : Nat
  type : String
  status : String
  rating : Option Int
  publicReview : String
  reviewCategory : List CategoryRating
  submittedAt : String
  guestName : String
  listingName : String
  channel : String
  sourceUrl : Option String
deriving DecidableEq, Repr

/-- The per-review mapping of the places adapter (part_000 lines 76-91):
a deterministic id from the stable key, the 0-5 rating doubled and
rounded when present, and the remaining fields copied with their
defaults. -/
def normalizeGoogle (placeName : String) (placeUri : Option String)
    (rev : PlaceReview) : GoogleNormalized :=
  { id := 900000 + hashToInt (stableKey rev) % 100000
    type := "guest-to-host"
    status := "published"
    rating := rev.rating.map (fun q => jsRound (q * 2))
    publicReview := (rev.text.bind PlaceText.text).getD ""
    reviewCategory := []
    submittedAt := rev.publishTime.getD ""
    guestName := jsOrStr (rev.authorAttribution.bind PlaceAuthorAttribution.displayName)
      "Google user"
    listingName := placeName
    channel := "Google"
    sourceUrl := jsOrOpt rev.googleMapsUri placeUri }

/-- `data?.displayName?.text || listing`: the place name used for every
normalized review. -/
def googlePlaceName (data : PlaceDetailsResponse) (listing : String) : String :=
  jsOrStr (data.displayName.bind PlaceDisplayName.text) listing

/-- The success-path result construction of the places adapter:
`(data?.reviews ?? []).slice(0, 5).map(normalize)`. -/
def googleResult (listing : String) (data : PlaceDetailsResponse) :
    List GoogleNormalized :=
  ((data.reviews.getD []).take 5).map
    (normalizeGoogle (googlePlaceName data listing) data.googleMapsUri)

/-! ## Concrete fixtures used by the counterexamples and witnesses -/

/-- A published review of listing Studio A, indexed by a distinct guest. -/
def mkPubReview (i : Nat) : Review :=
  { id := Sum.inl (i : Int), type := none, status := some "published"
    channel := none, rating := some 8, publicReview := "Great stay"
    reviewCategory := [], submittedAt := ⟨2024, 5, 1, 12, 0, 0⟩
    submittedAtIso := none, submittedAtTs := none
    guestName := "Guest " ++ toString i, listingName := "Studio A"
    approved := some true }

/-- A mock collection of 30 published records, all matching a filterless
query. -/
def mockCollection30 : List Review := (List.range 30).map mkPubReview

def inputMock30 : GetInput :=
  { useLive := false, liveResult := Except.error "", mock := mockCollection30 }

/-- A record whose status is not "published". -/
def draftReview : Review :=
  { id := Sum.inl 7, type := none, status := some "draft", channel := none
    rating := some 6, publicReview := "Meh", reviewCategory := []
    submittedAt := ⟨2024, 4, 2, 9, 30, 0⟩, submittedAtIso := none
    submittedAtTs := none, guestName := "Drew", listingName := "Studio A"
    approved := some false }

def inputDraft : GetInput :=
  { useLive := false, liveResult := Except.error "", mock := [draftReview] }

def studioRating9 : Review :=
  { id := Sum.inl 101, type := none, status := some "published", channel := none
    rating := some 9, publicReview := "Nine", reviewCategory := []
    submittedAt := ⟨2024, 5, 1, 10, 0, 0⟩, submittedAtIso := none
    submittedAtTs := none, guestName := "A", listingName := "Studio A"
    approved := some true }

def studioRatingNull : Review :=
  { id := Sum.inl 102, type := none, status := some "published", channel := none
    rating := none, publicReview := "No score", reviewCategory := []
    submittedAt := ⟨2024, 5, 2, 10, 0, 0⟩, submittedAtIso := none
    submittedAtTs := none, guestName := "B", listingName := "Studio A"
    approved := some true }

def studioRating5 : Review :=
  { id := Sum.inl 103, type := none, status := some "published", channel := none
    rating := some 5, publicReview := "Five", reviewCategory := []
    submittedAt := ⟨2024, 5, 3, 10, 0, 0⟩, submittedAtIso := none
    submittedAtTs := none, guestName := "C", listingName := "Studio A"
    approved := some true }

def inputStudio : GetInput :=
  { useLive := false, liveResult := Except.error ""
    mock := [studioRating9, studioRatingNull, studioRating5] }

def ratingDescParams : Params :=
  { defaultQueryParams with sort := "rating", order := "desc" }

/-- A raw record whose overall rating is out of the canonical range. -/
def rawOverRange : HostawayReviewLike := { rating := some 15 }

/-- A raw record whose ratings all lie in the canonical range. -/
def rawInRange : HostawayReviewLike :=
  { rating := some 7
    reviewCategory := some [{ category := some "cleanliness", rating := some 9 }] }

/-- A review the server marked unapproved, with id 42. -/
def clientReviewUnapproved : ClientReview :=
  { id := 42, publicReview := "Lovely", listingName := "Studio A"
    guestName := "Ana", submittedAt := "2024-05-01 12:00:00"
    submittedAtIso := none, reviewCategory := [], approved := some false }

/-- A local approval map holding true exactly for id 42. -/
def localApprovals : Int → Bool := fun i => i == 42

/-- A record submitted mid-day on 2024-03-05. -/
def reviewDuringToDay : Review :=
  { id := Sum.inl 1, type := none, status := some "published", channel := none
    rating := some 8, publicReview := "Nice", reviewCategory := []
    submittedAt := ⟨2024, 3, 5, 10, 0, 0⟩, submittedAtIso := none
    submittedAtTs := none, guestName := "Dana", listingName := "Studio A"
    approved := some true }

def toMarch5Params : Params :=
  { defaultQueryParams with toD := some ⟨2024, 3, 5⟩ }

def inputToMarch5 : GetInput :=
  { useLive := false, liveResult := Except.error "", mock := [reviewDuringToDay] }

/-- An input whose live fetch failed. -/
def inputLiveError : GetInput :=
  { useLive := true, liveResult := Except.error "boom", mock := [reviewDuringToDay] }

/-- Two records with the same submission instant in collection order. -/
def tieReviewFirst : Review :=
  { id := Sum.inl 201, type := none, status := some "published", channel := none
    rating := some 9, publicReview := "One", reviewCategory := []
    submittedAt := ⟨2024, 5, 1, 12, 0, 0⟩, submittedAtIso := none
    submittedAtTs := none, guestName := "First", listingName := "Studio A"
    approved := some true }

def tieReviewSecond : Review :=
  { id := Sum.inl 202, type := none, status := some "published", channel := none
    rating := some 7, publicReview := "Two", reviewCategory := []
    submittedAt := ⟨2024, 5, 1, 12, 0, 0⟩, submittedAtIso := none
    submittedAtTs := none, guestName := "Second", listingName := "Studio A"
    approved := some true }

def dateDescParams : Params :=
  { defaultQueryParams with sort := "date", order := "desc" }

def inputTie : GetInput :=
  { useLive := false, liveResult := Except.error ""
    mock := [tieReviewFirst, tieReviewSecond] }

/-! ## Helper lemmas about the sort and filter steps -/

theorem sortStep_perm (p : Params) (rows : List Review) :
    List.Perm (sortStep p rows) rows := by
  unfold sortStep
  split
  · exact List.perm_insertionSort dateRel rows
  · split
    · exact List.perm_insertionSort ratingRel rows
    · exact List.Perm.refl rows

theorem orderStep_perm (p : Params) (rows : List Review) :
    List.Perm (orderStep p rows) rows := by
  unfold orderStep
  split
  · exact List.reverse_perm rows
  · exact List.Perm.refl rows

/-- A stable sort leaves the subsequence of records agreeing on the sort
key in input order: filtering any class of mutually related elements out
of the sorted list equals filtering it out of the input. -/
theorem filter_insertionSort_stable {α : Type _} (r : α → α → Prop)
    [DecidableRel r] (pb : α → Bool) (l : List α)
    (hp : ∀ a b, pb a = true → pb b = true → r a b) :
    (l.insertionSort r).filter pb = l.filter pb := by
  have hsub : List.Sublist (l.filter pb) l := List.filter_sublist l
  have hpw : (l.filter pb).Pairwise r :=
    List.pairwise_of_forall_mem_list
      (fun a ha b hb => hp a b (List.of_mem_filter ha) (List.of_mem_filter hb))
  have h1 : List.Sublist (l.filter pb) (List.insertionSort r l) :=
    List.sublist_insertionSort hpw hsub
  have h15 : (l.filter pb).filter pb = l.filter pb :=
    List.filter_eq_self.mpr (fun a ha => List.of_mem_filter ha)
  have h2 : List.Sublist (l.filter pb) ((List.insertionSort r l).filter pb) := by
    have h3 := h1.filter pb
    rwa [h15] at h3
  have hperm : List.Perm ((List.insertionSort r l).filter pb) (l.filter pb) :=
    (List.perm_insertionSort r l).filter pb
  exact (h2.eq_of_length hperm.length_eq.symm).symm

/-- In a list pairwise ordered by a relation that propagates a flag
forward, the flagged elements form a suffix: the list is its unflagged
part followed by its flagged part. -/
theorem pairwise_filter_partition {α : Type _} (q : α → Bool) :
    ∀ (l : List α), l.Pairwise (fun a b => q a = true → q b = true) →
      l = l.filter (fun x => !q x) ++ l.filter q := by
  intro l
  induction l with
  | nil => intro _; rfl
  | cons a t ih =>
    intro h
    rcases List.pairwise_cons.mp h with ⟨hhd, htl⟩
    by_cases hqa : q a = true
    · have hall : ∀ b ∈ t, q b = true := fun b hb => hhd b hb hqa
      have h1 : (a :: t).filter (fun x => !q x) = [] := by
        rw [List.filter_eq_nil_iff]
        intro x hx
        rcases List.mem_cons.mp hx with rfl | hx
        · simp [hqa]
        · simp [hall x hx]
      have h2 : (a :: t).filter q = a :: t :=
        List.filter_eq_self.mpr (by
          intro x hx
          rcases List.mem_cons.mp hx with rfl | hx
          · exact hqa
          · exact hall x hx)
      rw [h1, h2]
      rfl
    · have hqa2 : q a = false := by
        revert hqa
        cases q a <;> simp
      have hrec := ih htl
      calc a :: t
          = a :: (t.filter (fun x => !q x) ++ t.filter q) := by rw [← hrec]
        _ = (a :: t).filter (fun x => !q x) ++ (a :: t).filter q := by
            rw [List.filter_cons, List.filter_cons]
            simp [hqa2]

/-! ## Claim theorems -/

/-- C1 counterexample: on a collection of 30 records matching every
filter, a query with no parameters returns all 30 items, not the 25 a
1-indexed default page of limit 25 would hold; the response also carries
no total, page or limit fields. -/
theorem c1_no_pagination_cex :
    (hostawayGET defaultQueryParams inputMock30).result.length = 30
    ∧ (30 : Nat) ≠ 25 := by
  exact ⟨rfl, by decide⟩

/-- C1 amended: the query endpoint does not paginate. Its result is a
permutation (the sorted arrangement) of the whole post-filter record set,
never a page slice, and the page and limit query parameters have no
effect on the response. -/
theorem c1_no_pagination : ∀ (p : Params) (inp : GetInput) (a b : Option Int),
    List.Perm (hostawayGET p inp).result
      (applyFilters p ((chooseRows inp).1.map applyDefaults))
    ∧ hostawayGET { p with page := a, limit := b } inp = hostawayGET p inp := by
  intro p inp a b
  refine ⟨?_, rfl⟩
  show List.Perm
    (orderStep p (sortStep p (applyFilters p ((chooseRows inp).1.map applyDefaults)))) _
  exact (orderStep_perm p _).trans (sortStep_perm p _)

/-- C2 counterexample: a record with status "draft" is returned by a
query with no status parameter, not excluded. -/
theorem c2_no_status_filter_cex :
    (hostawayGET defaultQueryParams inputDraft).result.map (fun r => r.status)
      = [some "draft"]
    ∧ some "draft" ≠ some "published" := by
  exact ⟨rfl, by decide⟩

/-- C2 amended: the engine applies no status filter at all. A query with
no parameters returns every record of the collection (after the defaults
pass, in reversed order because the default direction is desc), whatever
its status. -/
theorem c2_no_status_filter : ∀ (inp : GetInput),
    (hostawayGET defaultQueryParams inp).result
      = ((chooseRows inp).1.map applyDefaults).reverse := by
  intro inp
  have hf : ∀ (m : List Review), m.filter (passDate none none) = m :=
    fun m => List.filter_eq_self.mpr (fun a _ => rfl)
  show (((chooseRows inp).1.map applyDefaults).filter (passDate none none)).reverse = _
  rw [hf]

/-- C3 counterexample: on published reviews rated 9, null, 5 the query
sort=rating, order=desc returns the ratings in the order null, 9, 5 -
not 9, 5, null as the claim states. -/
theorem c3_nulls_lowest_cex :
    (hostawayGET ratingDescParams inputStudio).result.map (fun r => r.rating)
      = [none, some 9, some 5]
    ∧ ([none, some 9, some 5] : List (Option ℚ)) ≠ [some 9, some 5, none] := by
  exact ⟨rfl, by decide⟩

/-- C3 amended: when sorting by rating in ascending order every
null-rated record is placed after every non-null-rated record (nulls
sort as highest), so the ascending result is its non-null part followed
by its null part; consequently sort=rating, order=desc on ratings
9, null, 5 returns them as null, 9, 5. -/
theorem c3_nulls_sort_highest : ∀ (l : List Review),
    l.insertionSort ratingRel
      = (l.insertionSort ratingRel).filter (fun r => !r.rating.isNone)
        ++ (l.insertionSort ratingRel).filter (fun r => r.rating.isNone)
    ∧ (hostawayGET ratingDescParams inputStudio).result.map (fun r => r.rating)
      = [none, some 9, some 5] := by
  intro l
  refine ⟨?_, rfl⟩
  have hs : (l.insertionSort ratingRel).Pairwise ratingRel :=
    List.sorted_insertionSort ratingRel l
  have himp : (l.insertionSort ratingRel).Pairwise
      (fun a b => (fun r => r.rating.isNone) a = true →
        (fun r => r.rating.isNone) b = true) := by
    refine hs.imp ?_
    intro a b hab ha
    have ha2 : a.rating = none := Option.isNone_iff_eq_none.mp ha
    unfold ratingRel at hab
    rw [ha2] at hab
    rcases hb : b.rating with _ | y
    · simp [hb]
    · rw [hb] at hab
      exact absurd hab (fun h => h)
  exact pairwise_filter_partition (fun r => r.rating.isNone)
    (l.insertionSort ratingRel) himp

/-- C4 counterexample: normalization does not clamp - a raw overall
rating of 15 stays 15, which is outside the interval [0,10]. -/
theorem c4_no_clamping_cex :
    (normalizeHostaway rawOverRange "fallback").rating = some 15
    ∧ ¬((15 : ℚ) ≤ 10) := by
  exact ⟨rfl, by norm_num⟩

/-- C4 amended: normalization passes ratings through unclamped - the
overall rating is the first present of the raw rating, overallRating and
score fields, and category ratings are copied - so the normalized
ratings lie in [0,10] exactly when the raw values supplied do. -/
theorem c4_rating_passthrough : ∀ (raw : HostawayReviewLike) (fid : String),
    (∀ x : ℚ, raw.rating = some x → 0 ≤ x ∧ x ≤ 10) →
    (∀ x : ℚ, raw.overallRating = some x → 0 ≤ x ∧ x ≤ 10) →
    (∀ x : ℚ, raw.score = some x → 0 ≤ x ∧ x ≤ 10) →
    (∀ c ∈ raw.reviewCategory.getD [],
      ∀ x : ℚ, c.rating = some x → 0 ≤ x ∧ x ≤ 10) →
    (∀ e ∈ raw.categories.getD [],
      ∀ x : ℚ, e.2 = some x → 0 ≤ x ∧ x ≤ 10) →
    (∀ x : ℚ, (normalizeHostaway raw fid).rating = some x → 0 ≤ x ∧ x ≤ 10)
    ∧ (∀ c ∈ (normalizeHostaway raw fid).reviewCategory,
        ∀ x : ℚ, c.rating = some x → 0 ≤ x ∧ x ≤ 10) := by
  intro raw fid h1 h2 h3 h4 h5
  constructor
  · intro x hx
    have hr : (normalizeHostaway raw fid).rating =
        (match raw.rating with
         | some v => some v
         | none =>
           match raw.overallRating with
           | some v => some v
           | none => raw.score) := rfl
    rw [hr] at hx
    rcases hra : raw.rating with _ | a
    · rw [hra] at hx
      rcases hrb : raw.overallRating with _ | b
      · rw [hrb] at hx
        exact h3 x hx
      · rw [hrb] at hx
        injection hx with h
        subst h
        exact h2 b hrb
    · rw [hra] at hx
      injection hx with h
      subst h
      exact h1 a hra
  · intro c hc x hx
    have hrc : (normalizeHostaway raw fid).reviewCategory =
        (match raw.reviewCategory with
         | some arr =>
           (arr.map (fun c =>
             ({ category := c.category.getD "", rating := c.rating } : CategoryRating))).filter
             (fun cr => cr.category.length > 0)
         | none =>
           match raw.categories with
           | some entries =>
             entries.map (fun e => ({ category := e.1, rating := e.2 } : CategoryRating))
           | none => []) := rfl
    rw [hrc] at hc
    rcases hA : raw.reviewCategory with _ | arr
    · rw [hA] at hc
      rcases hB : raw.categories with _ | entries
      · rw [hB] at hc
        exact absurd hc (List.not_mem_nil c)
      · rw [hB] at hc
        rcases List.mem_map.mp hc with ⟨e, he, rfl⟩
        refine h5 e ?_ x hx
        rw [hB]
        exact he
    · rw [hA] at hc
      have hc2 := List.mem_of_mem_filter hc
      rcases List.mem_map.mp hc2 with ⟨c0, hc0, rfl⟩
      refine h4 c0 ?_ x hx
      rw [hA]
      exact hc0

/-- C4 witness: the amended theorem applied to an in-range raw record. -/
theorem c4_rating_passthrough_witness :
    (∀ x : ℚ, (normalizeHostaway rawInRange "w").rating = some x → 0 ≤ x ∧ x ≤ 10)
    ∧ (∀ c ∈ (normalizeHostaway rawInRange "w").reviewCategory,
        ∀ x : ℚ, c.rating = some x → 0 ≤ x ∧ x ≤ 10) :=
  c4_rating_passthrough rawInRange "w"
    (fun x hx => by
      injection hx with h
      subst h
      constructor <;> norm_num)
    (fun x hx => Option.noConfusion hx)
    (fun x hx => Option.noConfusion hx)
    (fun c hc x hx => by
      have hce := List.mem_singleton.mp hc
      subst hce
      injection hx with h
      subst h
      constructor <;> norm_num)
    (fun e he x _ => absurd he (List.not_mem_nil e))

/-- C5: the public approved-only view keeps a fetched review exactly when
its server approved flag is true or the local approval map holds true for
its id; in particular a review with approved=false but a local map entry
of true is included. -/
theorem c5_approval_union : ∀ (revs : List ClientReview) (ap : Int → Bool)
    (r : ClientReview),
    (r ∈ approvedUnion revs ap ↔
      r ∈ revs ∧ (r.approved = some true ∨ ap r.id = true))
    ∧ clientReviewUnapproved ∈ approvedUnion [clientReviewUnapproved] localApprovals
    ∧ clientReviewUnapproved.approved = some false := by
  intro revs ap r
  refine ⟨?_, ?_, rfl⟩
  · simp [approvedUnion, List.mem_filter]
  · exact List.mem_singleton_self clientReviewUnapproved

/-- C6 counterexample: with to=2024-03-05 a record submitted at 10:00
that day is excluded from the results, though the claim says any record
during the to day is retained. -/
theorem c6_to_day_excluded_cex :
    (hostawayGET toMarch5Params inputToMarch5).result = []
    ∧ reviewDuringToDay.submittedAt = ⟨2024, 3, 5, 10, 0, 0⟩ := by
  exact ⟨rfl, rfl⟩

/-- C6 amended: the date-range filter is inclusive against the epoch
milliseconds of submittedAt, but both bounds are parsed at 00:00:00 UTC
of their date - to is midnight of the to day, not 23:59:59 - so a record
submitted strictly after midnight of the to day is excluded. -/
theorem c6_date_bounds_midnight : ∀ (f t : Ymd) (r : Review),
    passDate (some (ymdParseMs f)) (some (ymdParseMs t)) r
      = (decide (ymdParseMs f ≤ toEpochMs r) && decide (toEpochMs r ≤ ymdParseMs t))
    ∧ ymdParseMs t = epochMs ⟨t.y, t.m, t.d, 0, 0, 0⟩ := by
  intro f t r
  refine ⟨?_, rfl⟩
  show ((!decide (toEpochMs r < ymdParseMs f))
      && (!decide (ymdParseMs t < toEpochMs r)))
    = (decide (ymdParseMs f ≤ toEpochMs r) && decide (toEpochMs r ≤ ymdParseMs t))
  congr 1
  · rw [← decide_not]
    exact decide_eq_decide.mpr Int.not_lt
  · rw [← decide_not]
    exact decide_eq_decide.mpr Int.not_lt

/-- C7: when the live path is on and the live fetch fails (network,
token, HTTP status or parse failure all surface as a thrown error), the
handler still answers status success, serves the processed mock fixture,
and marks the provenance header live-error-fallback, which differs from
live. -/
theorem c7_fail_soft : ∀ (p : Params) (inp : GetInput) (e : String),
    inp.useLive = true → inp.liveResult = Except.error e →
    (hostawayGET p inp).status = "success"
    ∧ (hostawayGET p inp).result = processRows p inp.mock
    ∧ (hostawayGET p inp).xSource = "live-error-fallback"
    ∧ (hostawayGET p inp).xSource ≠ "live" := by
  intro p inp e h1 h2
  have hc : chooseRows inp = (inp.mock, "live-error-fallback") := by
    unfold chooseRows
    rw [h1, h2]
    simp
  have hval : hostawayGET p inp =
      ⟨"success", processRows p inp.mock, "live-error-fallback"⟩ := by
    unfold hostawayGET
    rw [hc]
  rw [hval]
  refine ⟨rfl, rfl, rfl, ?_⟩
  show ("live-error-fallback" : String) ≠ "live"
  decide

/-- C7 witness: the fail-soft theorem at a concrete failing input. -/
theorem c7_fail_soft_witness :
    (hostawayGET defaultQueryParams inputLiveError).status = "success"
    ∧ (hostawayGET defaultQueryParams inputLiveError).result
        = processRows defaultQueryParams inputLiveError.mock
    ∧ (hostawayGET defaultQueryParams inputLiveError).xSource = "live-error-fallback"
    ∧ (hostawayGET defaultQueryParams inputLiveError).xSource ≠ "live" :=
  c7_fail_soft defaultQueryParams inputLiveError "boom" rfl rfl

/-- C8 counterexample: two records with equal sort keys in collection
order First, Second come back as Second, First under sort=date,
order=desc - the descending result reverses equal-key input order
instead of keeping it. -/
theorem c8_desc_tiebreak_cex :
    (hostawayGET dateDescParams inputTie).result.map (fun r => r.guestName)
      = ["Second", "First"]
    ∧ toEpochMs (applyDefaults tieReviewFirst)
        = toEpochMs (applyDefaults tieReviewSecond)
    ∧ (["Second", "First"] : List String) ≠ ["First", "Second"] := by
  exact ⟨rfl, rfl, by decide⟩

/-- C8 amended: the ascending sorts are stable with original collection
order as the tiebreak - filtering any fixed sort-key class out of the
sorted list equals filtering it out of the input - while the descending
direction is implemented as full reversal of the ascending result, so
equal-key records appear in reverse input order there. -/
theorem c8_stable_asc_reverse_desc : ∀ (l : List Review) (k : Int)
    (q : Option ℚ) (p : Params) (inp : GetInput),
    (l.insertionSort dateRel).filter (fun r => toEpochMs r == k)
      = l.filter (fun r => toEpochMs r == k)
    ∧ (l.insertionSort ratingRel).filter (fun r => r.rating == q)
      = l.filter (fun r => r.rating == q)
    ∧ (hostawayGET { p with order := "desc" } inp).result
      = ((hostawayGET { p with order := "asc" } inp).result).reverse := by
  intro l k q p inp
  refine ⟨?_, ?_, rfl⟩
  · apply filter_insertionSort_stable
    intro a b ha hb
    have ha2 : toEpochMs a = k := by simpa using ha
    have hb2 : toEpochMs b = k := by simpa using hb
    unfold dateRel
    rw [ha2, hb2]
  · apply filter_insertionSort_stable
    intro a b ha hb
    have ha2 : a.rating = q := by simpa using ha
    have hb2 : b.rating = q := by simpa using hb
    unfold ratingRel
    rw [ha2, hb2]
    rcases q with _ | x
    · exact trivial
    · exact le_refl x

/-- C9: the places adapter returns at most 5 normalized reviews, its
result is unchanged by truncating the provider reviews to 5 (the excess
is discarded), and each normalized overall rating is the provider rating
doubled and rounded to the nearest integer when that rating is a number,
and null otherwise. -/
theorem c9_places_truncate_and_scale : ∀ (listing : String)
    (data : PlaceDetailsResponse) (pn : String) (u : Option String)
    (rev : PlaceReview),
    (googleResult listing data).length ≤ 5
    ∧ googleResult listing data
      = googleResult listing { data with reviews := some ((data.reviews.getD []).take 5) }
    ∧ (normalizeGoogle pn u rev).rating
      = (match rev.rating with
         | some q => some (jsRound (q * 2))
         | none => none) := by
  intro listing data pn u rev
  refine ⟨?_, ?_, ?_⟩
  · unfold googleResult
    rw [List.length_map]
    exact List.length_take_le 5 _
  · show ((data.reviews.getD []).take 5).map
        (normalizeGoogle (googlePlaceName data listing) data.googleMapsUri)
      = (((data.reviews.getD []).take 5).take 5).map
        (normalizeGoogle (googlePlaceName data listing) data.googleMapsUri)
    rw [List.take_take, min_self]
  · rcases h : rev.rating with _ | x
    · simp [normalizeGoogle, h]
    · simp [normalizeGoogle, h]

/-- C10: every id the places adapter produces lies in the range
[900000, 999999], and the id is a deterministic function of the stable
key built from the identifying review content, so equal keys - in
particular two runs over the same provider response - give equal ids. -/
theorem c10_places_id_bounds_deterministic : ∀ (pn pn2 : String)
    (u u2 : Option String) (rev rev2 : PlaceReview),
    900000 ≤ (normalizeGoogle pn u rev).id
    ∧ (normalizeGoogle pn u rev).id ≤ 999999
    ∧ (stableKey rev = stableKey rev2 →
        (normalizeGoogle pn u rev).id = (normalizeGoogle pn2 u2 rev2).id) := by
  intro pn pn2 u u2 rev rev2
  refine ⟨?_, ?_, ?_⟩
  · show 900000 ≤ 900000 + hashToInt (stableKey rev) % 100000
    omega
  · show 900000 + hashToInt (stableKey rev) % 100000 ≤ 999999
    have h := Nat.mod_lt (hashToInt (stableKey rev)) (show 0 < 100000 by decide)
    omega
  · intro h
    show 900000 + hashToInt (stableKey rev) % 100000
        = 900000 + hashToInt (stableKey rev2) % 100000
    rw [h]

end FlexReviews
